import Mathlib

set_option maxRecDepth 8192

unseal Rat.add Rat.mul Rat.inv

/-!
Verification of the IntuitiveCare ANS data pipeline.

The development shallowly embeds the repository's Python source:

* `src/src/utils/validators.py` — the CNPJ (national tax identifier)
  validator `validate_cnpj`;
* `src/src/main.py` — the ingestion orchestrator `main`;
* `src/api/server.py` — the read-only query endpoints
  `get_operator_expenses` and `get_statistics`;
* `src/services/zip_processor.py` is not among the sources; its
  `process_zip` is modelled from the specification, pinned where the
  repository's own test suite fixes its behaviour.

Strings are handled through their character lists, machine numbers as
`Nat`/`ℚ`; every definition is executable.  `Rat` arithmetic is unsealed
so that concrete runs evaluate inside `decide`.
-/

namespace IC

/-! ### Identifier validator (src/src/utils/validators.py) -/

/-- Digit value of a decimal digit character. -/
def digitVal (c : Char) : Nat := c.toNat - '0'.toNat

/-- The digit sequence of a string after removing all non-digit characters.
Mirrors the re.sub call in validate_cnpj that deletes every character
outside 0..9, here read off as digit values. -/
def stripDigits (s : String) : List Nat :=
  (s.data.filter Char.isDigit).map digitVal

/-- Mirrors the check len(set(cnpj)) == 1 in validate_cnpj: the sequence is
nonempty and all of its entries coincide. -/
def allSameDigits : List Nat → Bool
  | [] => false
  | d :: rest => rest.all (· == d)

/-- calculate_digit from validators.py: weighted sum of the digits, taken
mod 11; the check digit is 0 when the remainder is below 2 and
11 - remainder otherwise. -/
def calculate_digit (body weights : List Nat) : Nat :=
  let soma := (List.zipWith (· * ·) body weights).sum
  let remainder := soma % 11
  if remainder < 2 then 0 else 11 - remainder

/-- weights_1 from validate_cnpj (first check digit). -/
def weights_1 : List Nat := [5, 4, 3, 2, 9, 8, 7, 6, 5, 4, 3, 2]

/-- weights_2 from validate_cnpj (second check digit). -/
def weights_2 : List Nat := [6, 5, 4, 3, 2, 9, 8, 7, 6, 5, 4, 3, 2]

/-- The body of validate_cnpj after stripping, acting on the digit values of
the stripped string.  The final Python comparison is between the last two
characters and the two-character f-string of the check digits; since
`calculate_digit` always yields a value in 0..9, that string comparison is
exactly the comparison of the last two digit values with the computed pair. -/
def validate_digits (ds : List Nat) : Bool :=
  if ds.length ≠ 14 then false
  else if allSameDigits ds then false
  else
    let digit_1 := calculate_digit (ds.take 12) weights_1
    let digit_2 := calculate_digit (ds.take 13) weights_2
    ds.drop 12 == [digit_1, digit_2]

/-- validate_cnpj (src/src/utils/validators.py) on a string argument.  The
leading Python guard `if not cnpj` rejects the empty string before any
stripping happens. -/
def validate_cnpj (cnpj : String) : Bool :=
  if cnpj = "" then false
  else validate_digits (stripDigits cnpj)

/-- validate_cnpj at the untyped Python call boundary: an absent argument
(None) is falsy and is rejected by the same `if not cnpj` guard. -/
def validate_cnpj_opt : Option String → Bool
  | none => false
  | some s => validate_cnpj s

/-- First check digit as the specification words it: weighted sum of the
12 body digits with weights [5,4,3,2,9,8,7,6,5,4,3,2], remainder mod 11,
digit 0 if the remainder is below 2 and 11 - remainder otherwise. -/
def spec_first_check_digit (body : List Nat) : Nat :=
  let r := (List.zipWith (· * ·) body [5, 4, 3, 2, 9, 8, 7, 6, 5, 4, 3, 2]).sum % 11
  if r < 2 then 0 else 11 - r

/-- Second check digit as the specification words it: the same rule over the
13 digits (body plus first check digit) with weights
[6,5,4,3,2,9,8,7,6,5,4,3,2]. -/
def spec_second_check_digit (body : List Nat) : Nat :=
  let r := (List.zipWith (· * ·) body [6, 5, 4, 3, 2, 9, 8, 7, 6, 5, 4, 3, 2]).sum % 11
  if r < 2 then 0 else 11 - r

/-- The re.sub result itself, as a string: the input with every non-digit
character removed. -/
def stripNonDigits (s : String) : String := String.mk (s.data.filter Char.isDigit)

/-! ### CSV / ZIP processing model -/

/-- Split a character list at every occurrence of the separator, Python
str.split semantics: the empty input yields one empty field. -/
def splitChar (sep : Char) : List Char → List (List Char)
  | [] => [[]]
  | c :: rest =>
    match splitChar sep rest with
    | [] => [[c]]
    | h :: t => if c = sep then [] :: h :: t else (c :: h) :: t

/-- Substring test on character lists. -/
def containsSub (needle : List Char) : List Char → Bool
  | [] => needle.isEmpty
  | c :: t => needle.isPrefixOf (c :: t) || containsSub needle t

/-- The entry name carries the tabular suffix .csv. -/
def isCsvName (name : String) : Bool :=
  (".csv".data.reverse).isPrefixOf name.data.reverse

/-- Parse a nonempty all-digit character list as a natural number. -/
def parseNatDigits (l : List Char) : Option Nat :=
  if l.isEmpty then none
  else if l.all Char.isDigit then some (l.foldl (fun n c => 10 * n + digitVal c) 0)
  else none

/-- Comma-decimal monetary parsing: an integer part, optionally a comma and
a fractional part, is read as the dot-decimal rational it denotes; anything
else is a malformed numeric field. -/
def parseCommaDecimal (l : List Char) : Option ℚ :=
  match splitChar ',' l with
  | [ip] => (parseNatDigits ip).map (fun n => (n : ℚ))
  | [ip, fp] =>
    match parseNatDigits ip, parseNatDigits fp with
    | some i, some f => some ((i : ℚ) + (f : ℚ) / ((10 : ℚ) ^ fp.length))
    | _, _ => none
  | _ => none

/-- A normalized output row of the processor. -/
structure NormalizedRecord where
  data : String
  reg_ans : String
  conta_contabil : String
  descricao : String
  balanceValue : ℚ
deriving DecidableEq

/-- Value of the column named `name` in a data row, located through the
header (column-name lookup, not positional access). -/
def getField (cols fields : List (List Char)) (name : List Char) : Option (List Char) :=
  match cols.findIdx? (· == name) with
  | none => none
  | some i => fields.get? i

/-- Accepted source names for the balance column (alias table). -/
def balanceAliases : List (List Char) := ["VL_SALDO_FINAL".data, "ValorDespesas".data]

/-- First alias that resolves to a column. -/
def getFieldAlias (cols fields : List (List Char)) : List (List Char) → Option (List Char)
  | [] => none
  | n :: rest =>
    match getField cols fields n with
    | some v => some v
    | none => getFieldAlias cols fields rest

/-- Parse one data line against the header columns; `none` is a malformed
row (missing required column or unparseable numeric field). -/
def parseRow (cols : List (List Char)) (line : List Char) : Option NormalizedRecord :=
  let fields := splitChar ';' line
  match getField cols fields "DATA".data, getField cols fields "REG_ANS".data,
        getField cols fields "CD_CONTA_CONTABIL".data,
        getField cols fields "DESCRICAO".data,
        getFieldAlias cols fields balanceAliases with
  | some dt, some reg, some conta, some desc, some bal =>
    match parseCommaDecimal bal with
    | some v => some ⟨String.mk dt, String.mk reg, String.mk conta, String.mk desc, v⟩
    | none => none
  | _, _, _, _, _ => none

/-- The expense-category substring the processor selects on. -/
def expenseFilter : List Char := "Eventos/Sinistros".data

/-- Header columns of a CSV payload. -/
def headerCols (content : List Char) : List (List Char) :=
  match splitChar '\n' content with
  | [] => []
  | h :: _ => splitChar ';' h

/-- Non-blank data lines of a CSV payload (everything after the header). -/
def dataLines (content : List Char) : List (List Char) :=
  match splitChar '\n' content with
  | [] => []
  | _ :: rest => rest.filter (· ≠ [])

/-- Normalize a CSV payload: parse each data line against the header,
dropping malformed rows, and keep the rows of the expense category. -/
def normalizeCsv (content : List Char) : List NormalizedRecord :=
  ((dataLines content).filterMap (parseRow (headerCols content))).filter
    (fun r => containsSub expenseFilter r.descricao.data)

/-- The content ZipProcessor.process_zip finds at a path: `none` when the
file is not a valid ZIP container, otherwise the named text entries. -/
abbrev Archive := Option (List (String × String))

/-- Modelled from the spec: `ZipProcessor.process_zip`
(src/services/zip_processor.py is not among the sources; only
src/tests/test_zip_processor.py exercises it).  Per the spec, an invalid
archive is a well-defined non-fatal failure (`none`, as the test
test_process_invalid_zip asserts), the first entry with a tabular suffix is
selected, the payload is parsed as semicolon-delimited CSV with a header
row, malformed rows are dropped, and comma-decimal monetary fields are
converted to dot-decimal values.  The additional selection of only the
expense-category rows is pinned by the repository's own test
test_process_zip_success, which feeds two well-formed rows and asserts that
exactly the "Despesas com Eventos/Sinistros" row is emitted. -/
def process_zip (a : Archive) : Option (List NormalizedRecord) :=
  match a with
  | none => none
  | some entries =>
    (entries.find? (fun e => isCsvName e.1)).map (fun e => normalizeCsv e.2.data)

/-! ### Ingestion orchestrator (src/src/main.py) -/

/-- os.path.basename for the slash-separated paths main builds. -/
def osBasename (p : String) : String :=
  String.mk ((splitChar '/' p.data).getLastD [])

/-- The all_data accumulator of main: one tagged row list per archive whose
processing produced a non-empty frame; `None` results and empty frames are
skipped (`if df is not None and not df.empty`). -/
def mainAllData (pz : String → Option (List NormalizedRecord)) (files : List String) :
    List (List (NormalizedRecord × String)) :=
  files.filterMap (fun f =>
    match pz f with
    | none => none
    | some rows =>
      if rows.isEmpty then none
      else some (rows.map (fun r => (r, osBasename f))))

/-- main's final concatenated record sequence (pd.concat of all_data), each
record tagged with its SOURCE_FILE column, the base name of its archive. -/
def mainRun (pz : String → Option (List NormalizedRecord)) (files : List String) :
    List (NormalizedRecord × String) :=
  (mainAllData pz files).flatten

/-- The processor applied to a modelled directory of archives. -/
def fsProcessor (fs : List (String × Archive)) : String → Option (List NormalizedRecord) :=
  fun p =>
    match fs.lookup p with
    | some a => process_zip a
    | none => none

/-- The CSV fixture of test_process_zip_success: a header and two
well-formed data rows. -/
def testCsv : String :=
  "DATA;REG_ANS;CD_CONTA_CONTABIL;DESCRICAO;VL_SALDO_FINAL\n2025-01-01;123456;1111;Despesas com Eventos/Sinistros;100,50\n2025-01-01;123456;2222;Outra Despesa;200,00"

/-- The ZIP fixture of test_process_zip_success. -/
def testArchive : Archive := some [("test_data.csv", testCsv)]

/-- The single record the processor emits on the test fixture. -/
def testRecord : NormalizedRecord :=
  ⟨"2025-01-01", "123456", "1111", "Despesas com Eventos/Sinistros", 201 / 2⟩

def csvA : String :=
  "DATA;REG_ANS;CD_CONTA_CONTABIL;DESCRICAO;VL_SALDO_FINAL\n2025-01-01;111111;411111111;Despesas com Eventos/Sinistros;10,00"

def csvB : String :=
  "DATA;REG_ANS;CD_CONTA_CONTABIL;DESCRICAO;VL_SALDO_FINAL\n2025-04-01;222222;411111112;Despesas com Eventos/Sinistros;20,25"

def archA : Archive := some [("1T2025.csv", csvA)]

def archB : Archive := some [("2T2025.csv", csvB)]

/-- A path whose content is plain text, not a ZIP container. -/
def archBad : Archive := none

def dirWithBad : List (String × Archive) :=
  [("downloads/1T2025.zip", archA), ("downloads/bad.zip", archBad),
   ("downloads/2T2025.zip", archB)]

def dirWithoutBad : List (String × Archive) :=
  [("downloads/1T2025.zip", archA), ("downloads/2T2025.zip", archB)]

/-- A one-record processor, for concrete orchestrator runs. -/
def pzOne : String → Option (List NormalizedRecord) := fun _ => some [testRecord]

/-- Ambient effects (wall-clock reading, RNG seed) a run could in principle
observe.  Neither main nor the processor reads a clock or a random source
anywhere in src/src/main.py, so the embedding threads the environment
through the run without consuming it. -/
structure Env where
  clock : Nat
  rngSeed : Nat

/-- main as run inside an ambient environment. -/
def mainRunEnv (_e : Env) (pz : String → Option (List NormalizedRecord))
    (files : List String) : List (NormalizedRecord × String) :=
  mainRun pz files

/-! ### API storage model (src/api/server.py) -/

/-- An operator row (operadoras table) as the API reads it. -/
structure Operadora where
  cnpj : String
  razao_social : String
  reg_ans : String
  uf : String
deriving DecidableEq

/-- An expense row (despesas table); periods are totally ordered date codes. -/
structure Despesa where
  reg_ans : String
  data_trimestre : Nat
  conta_contabil : String
  vl_saldo_final : ℚ
deriving DecidableEq

/-- The relational store the endpoints query. -/
structure DB where
  operadoras : List Operadora
  despesas : List Despesa

/-- db.query(Operadora).filter_by(cnpj=cnpj).first() -/
def find_operator (db : DB) (cnpj : String) : Option Operadora :=
  db.operadoras.find? (fun o => o.cnpj == cnpj)

/-- The ORDER BY data_trimestre DESC comparator. -/
def despesaDescLe (a b : Despesa) : Bool := decide (b.data_trimestre ≤ a.data_trimestre)

/-- get_operator_expenses: 404 (`none`) when no operator carries the tax id,
otherwise the operator's expense rows ordered by period descending. -/
def get_operator_expenses (db : DB) (cnpj : String) : Option (List Despesa) :=
  match find_operator db cnpj with
  | none => none
  | some op =>
    some ((db.despesas.filter (fun d => d.reg_ans == op.reg_ans)).mergeSort despesaDescLe)

/-- func.max(Despesa.data_trimestre): NULL (`none`) on an empty table. -/
def latest_quarter (db : DB) : Option Nat :=
  (db.despesas.map (fun d => d.data_trimestre)).max?

/-- The base filter of get_statistics: leaf accounts (9-character code)
within the latest quarter; with a NULL latest quarter no row satisfies the
SQL comparison. -/
def stats_base_rows (db : DB) : List Despesa :=
  match latest_quarter db with
  | none => []
  | some q =>
    db.despesas.filter (fun d => d.conta_contabil.length == 9 && d.data_trimestre == q)

/-- SUM(vl_saldo_final) over the base filter, with the Python `or 0`
coercion: NULL (no matching row) becomes 0; a zero sum is likewise 0. -/
def total_expenses (db : DB) : ℚ :=
  (if stats_base_rows db = [] then none
   else some ((stats_base_rows db).map (fun d => d.vl_saldo_final)).sum).getD 0

/-- COUNT(DISTINCT reg_ans) over the base filter, with the Python `or 1`
coercion: a zero count becomes 1. -/
def num_operators (db : DB) : Nat :=
  let c := ((stats_base_rows db).map (fun d => d.reg_ans)).dedup.length
  if c = 0 then 1 else c

/-- average_expenses = total_expenses / num_operators. -/
def average_expenses (db : DB) : ℚ := total_expenses db / (num_operators db : ℚ)

/-- A concrete operator row. -/
def op0 : Operadora := ⟨"06990590000123", "ACME SAUDE", "123456", "SP"⟩

/-- A concrete store: one operator, two expense rows in ascending period
order. -/
def db0 : DB :=
  ⟨[op0], [⟨"123456", 202501, "411111111", 10⟩, ⟨"123456", 202504, "411111111", 20⟩]⟩

/-! ### Theorems -/

/-- The stripped digit sequence of the empty string is empty. -/
theorem stripDigits_empty : stripDigits "" = [] := rfl

/-- A string whose stripped digit sequence is nonempty is itself nonempty. -/
theorem ne_empty_of_stripDigits (s : String) (h : stripDigits s ≠ []) : s ≠ "" := by
  intro hs
  exact h (hs ▸ stripDigits_empty)

/-- C1: for every input whose stripped digit sequence has length 14 and is
not all-identical, validate_cnpj returns true iff the last two stripped
digits equal, in order, the specification's check-digit pair; and the two
literal cases validate to true and false respectively. -/
theorem validate_cnpj_checksum_spec :
    (∀ s : String, (stripDigits s).length = 14 →
      allSameDigits (stripDigits s) = false →
      (validate_cnpj s = true ↔
        (stripDigits s).drop 12 =
          [spec_first_check_digit ((stripDigits s).take 12),
           spec_second_check_digit ((stripDigits s).take 13)])) ∧
    validate_cnpj "06990590000123" = true ∧
    validate_cnpj "06990590000124" = false := by
  refine ⟨?_, by decide, by decide⟩
  intro s h14 hrep
  have hne : s ≠ "" := by
    refine ne_empty_of_stripDigits s ?_
    intro h
    rw [h] at h14
    simp at h14
  have h1 : spec_first_check_digit ((stripDigits s).take 12) =
      calculate_digit ((stripDigits s).take 12) weights_1 := rfl
  have h2 : spec_second_check_digit ((stripDigits s).take 13) =
      calculate_digit ((stripDigits s).take 13) weights_2 := rfl
  rw [h1, h2]
  unfold validate_cnpj validate_digits
  rw [if_neg hne, if_neg (by omega), if_neg (by simp [hrep])]
  simp

/-- C1 witness: the checksum characterisation applied at the known valid
literal identifier. -/
theorem validate_cnpj_checksum_spec_witness :
    (stripDigits "06990590000123").drop 12 =
      [spec_first_check_digit ((stripDigits "06990590000123").take 12),
       spec_second_check_digit ((stripDigits "06990590000123").take 13)] :=
  (validate_cnpj_checksum_spec.1 "06990590000123" (by decide) (by decide)).mp
    (by decide)

/-- C2: validate_cnpj fails closed — false for an absent input, for the
empty string, for every input whose stripped digit sequence does not have
length 14, and for every input whose 14 stripped digits are all identical. -/
theorem validate_cnpj_fails_closed :
    validate_cnpj_opt none = false ∧
    validate_cnpj "" = false ∧
    (∀ s : String, (stripDigits s).length ≠ 14 → validate_cnpj s = false) ∧
    (∀ s : String, (stripDigits s).length = 14 →
      allSameDigits (stripDigits s) = true → validate_cnpj s = false) := by
  refine ⟨rfl, rfl, ?_, ?_⟩
  · intro s h
    by_cases hs : s = ""
    · rw [hs]; rfl
    · unfold validate_cnpj validate_digits
      rw [if_neg hs, if_pos h]
  · intro s h14 hrep
    have hne : s ≠ "" := by
      refine ne_empty_of_stripDigits s ?_
      intro h
      rw [h] at h14
      simp at h14
    unfold validate_cnpj validate_digits
    rw [if_neg hne, if_neg (by omega), if_pos hrep]

/-- C2 witness: the 13-digit identifier that lost its leading zero and the
all-zeros placeholder are both rejected. -/
theorem validate_cnpj_fails_closed_witness :
    validate_cnpj "6990590000123" = false ∧
    validate_cnpj "00000000000000" = false :=
  ⟨validate_cnpj_fails_closed.2.2.1 _ (by decide),
   validate_cnpj_fails_closed.2.2.2 _ (by decide) (by decide)⟩

/-- Unfolding of a successful validation: the stripped sequence has length
14, is not all-identical, and its last two digits are the computed pair. -/
theorem validate_digits_eq_true (ds : List Nat) (h : validate_digits ds = true) :
    ds.length = 14 ∧ allSameDigits ds = false ∧
    ds.drop 12 = [calculate_digit (ds.take 12) weights_1,
                  calculate_digit (ds.take 13) weights_2] := by
  unfold validate_digits at h
  split at h
  · exact absurd h (by simp)
  · split at h
    · exact absurd h (by simp)
    · next hlen hrep =>
      refine ⟨by omega, by simpa using hrep, by simpa using h⟩

/-- Setting an entry at or beyond the taken prefix leaves the prefix. -/
theorem take_set_of_le (l : List Nat) (n i : Nat) (x : Nat) (h : n ≤ i) :
    (l.set i x).take n = l.take n := by
  rw [List.set_take]
  exact List.set_eq_of_length_le (le_trans (List.length_take_le n l) h)

/-- Overwriting the first check digit (index 12) with any different value
invalidates the sequence. -/
theorem mutate_first_check (ds : List Nat) (x : Nat)
    (hv : validate_digits ds = true) (hx : x ≠ ds.getD 12 0) :
    validate_digits (ds.set 12 x) = false := by
  obtain ⟨hlen, hrep, hdrop⟩ := validate_digits_eq_true ds hv
  have hd12 : ds.getD 12 0 = calculate_digit (ds.take 12) weights_1 := by
    have : ds.getD 12 0 = (ds.drop 12).getD 0 0 := by
      simp [List.getD, List.getElem?_drop]
    rw [this, hdrop]
    rfl
  unfold validate_digits
  rw [if_neg (by simp [hlen])]
  split
  · rfl
  · have ht : (ds.set 12 x).take 12 = ds.take 12 := take_set_of_le ds 12 12 x le_rfl
    have hdr : (ds.set 12 x).drop 12 = (ds.drop 12).set 0 x := by
      rw [List.drop_set]
      simp
    rw [hdrop] at hdr
    simp only [List.set] at hdr
    rw [ht, hdr]
    simp only [beq_eq_false_iff_ne, ne_eq, List.cons.injEq, not_and]
    intro he
    exact absurd (he ▸ hd12.symm) hx

/-- Overwriting the second check digit (index 13) with any different value
invalidates the sequence. -/
theorem mutate_second_check (ds : List Nat) (x : Nat)
    (hv : validate_digits ds = true) (hx : x ≠ ds.getD 13 0) :
    validate_digits (ds.set 13 x) = false := by
  obtain ⟨hlen, hrep, hdrop⟩ := validate_digits_eq_true ds hv
  have hd13 : ds.getD 13 0 = calculate_digit (ds.take 13) weights_2 := by
    have : ds.getD 13 0 = (ds.drop 12).getD 1 0 := by
      simp [List.getD, List.getElem?_drop]
    rw [this, hdrop]
    rfl
  unfold validate_digits
  rw [if_neg (by simp [hlen])]
  split
  · rfl
  · have ht12 : (ds.set 13 x).take 12 = ds.take 12 :=
      take_set_of_le ds 12 13 x (by omega)
    have ht13 : (ds.set 13 x).take 13 = ds.take 13 := take_set_of_le ds 13 13 x le_rfl
    have hdr : (ds.set 13 x).drop 12 = (ds.drop 12).set 1 x := by
      rw [List.drop_set]
      simp
    rw [hdrop] at hdr
    simp only [List.set] at hdr
    rw [ht12, ht13, hdr]
    simp only [beq_eq_false_iff_ne, ne_eq, List.cons.injEq, not_and]
    intro _ he
    exact fun _ => hx (he.trans hd13.symm)

/-- C3: on every identifier accepted by validate_cnpj, replacing the 13th
stripped digit (index 12, the first check digit) or the 14th stripped digit
(index 13, the second check digit) by any different value makes the
validator reject. -/
theorem validate_cnpj_mutation_flips :
    ∀ (s : String) (x : Nat), validate_cnpj s = true →
      (x ≠ (stripDigits s).getD 12 0 →
        validate_digits ((stripDigits s).set 12 x) = false) ∧
      (x ≠ (stripDigits s).getD 13 0 →
        validate_digits ((stripDigits s).set 13 x) = false) := by
  intro s x hv
  have hb : validate_digits (stripDigits s) = true := by
    unfold validate_cnpj at hv
    split at hv
    · exact absurd hv (by simp)
    · exact hv
  exact ⟨fun hx => mutate_first_check _ x hb hx,
         fun hx => mutate_second_check _ x hb hx⟩

/-- C3 witness: mutating either check digit of the known valid identifier
to 9 yields an invalid digit sequence. -/
theorem validate_cnpj_mutation_flips_witness :
    validate_digits ((stripDigits "06990590000123").set 12 9) = false ∧
    validate_digits ((stripDigits "06990590000123").set 13 9) = false :=
  ⟨(validate_cnpj_mutation_flips "06990590000123" 9 (by decide)).1 (by decide),
   (validate_cnpj_mutation_flips "06990590000123" 9 (by decide)).2 (by decide)⟩

/-- Stripping is idempotent at the digit-sequence level. -/
theorem stripDigits_stripNonDigits (s : String) :
    stripDigits (stripNonDigits s) = stripDigits s := by
  unfold stripDigits stripNonDigits
  simp [List.filter_filter]

/-- C4: validate_cnpj is insensitive to non-digit formatting characters —
it returns the same verdict on the raw input and on the input with all
non-digit characters removed. -/
theorem validate_cnpj_strip_agnostic :
    ∀ s : String, validate_cnpj s = validate_cnpj (stripNonDigits s) := by
  intro s
  by_cases h1 : s = ""
  · rw [h1]; rfl
  · by_cases h2 : stripNonDigits s = ""
    · have hs : stripDigits s = [] := by
        rw [← stripDigits_stripNonDigits s, h2, stripDigits_empty]
      unfold validate_cnpj
      rw [if_neg h1, if_pos h2, hs]
      rfl
    · unfold validate_cnpj
      rw [if_neg h1, if_neg h2, stripDigits_stripNonDigits]

/-- C5 evaluation: the invalid archive yields the graceful `None`, and main
over a directory containing it produces exactly the records of the two good
archives — the same sequence as a run without the bad archive, so the run
is not aborted.  main keeps no skipped-file count anywhere: its only
outputs are the concatenated frame and progress prints. -/
theorem main_skips_invalid_archive :
    process_zip archBad = none ∧
    mainRun (fsProcessor dirWithBad) (dirWithBad.map Prod.fst) =
      mainRun (fsProcessor dirWithoutBad) (dirWithoutBad.map Prod.fst) ∧
    (mainRun (fsProcessor dirWithBad) (dirWithBad.map Prod.fst)).length = 2 :=
  ⟨rfl, by decide, by decide⟩

/-- Inversion of a successful row parse: the balance column resolved through
the alias table and the monetary field is its comma-decimal value. -/
theorem parseRow_spec (cols : List (List Char)) (line : List Char)
    (r : NormalizedRecord) (h : parseRow cols line = some r) :
    ∃ bal, getFieldAlias cols (splitChar ';' line) balanceAliases = some bal ∧
      parseCommaDecimal bal = some r.balanceValue := by
  rw [parseRow.eq_def] at h
  simp only [] at h
  split at h
  · next dt reg conta desc bal h1 h2 h3 h4 h5 =>
    split at h
    · next v hv =>
      injection h with h6
      subst h6
      exact ⟨bal, h5, hv⟩
    · exact absurd h (by simp)
  · exact absurd h (by simp)

/-- C6 counterexample: on the repository's own test fixture — a valid ZIP
with one CSV entry, a header and two well-formed data rows — the processor
emits one record, not two. -/
theorem process_zip_drops_wellformed_row :
    (process_zip testArchive).map List.length = some 1 ∧
    (dataLines testCsv.data).length = 2 ∧
    ((dataLines testCsv.data).filter
      (fun l => (parseRow (headerCols testCsv.data) l).isNone)).length = 0 ∧
    (1 : Nat) ≠ 2 - 0 :=
  ⟨by decide, by decide, by decide, by decide⟩

/-- C6 amended: the processor emits exactly the well-formed data rows whose
description carries the expense-category substring, and every emitted
record's monetary field is the comma-decimal source field converted to its
dot-decimal value. -/
theorem process_zip_filtered_emission :
    ∀ (name content : String) (rows : List NormalizedRecord),
      process_zip (some [(name, content)]) = some rows →
      rows.length =
        ((dataLines content.data).filterMap (parseRow (headerCols content.data))).countP
          (fun r => containsSub expenseFilter r.descricao.data) ∧
      ∀ r ∈ rows,
        containsSub expenseFilter r.descricao.data = true ∧
        ∃ line ∈ dataLines content.data,
          parseRow (headerCols content.data) line = some r ∧
          ∃ bal, getFieldAlias (headerCols content.data) (splitChar ';' line)
              balanceAliases = some bal ∧
            parseCommaDecimal bal = some r.balanceValue := by
  intro name content rows h
  unfold process_zip at h
  rw [Option.map_eq_some'] at h
  obtain ⟨e, hfind, hrows⟩ := h
  cases hc : isCsvName name with
  | false =>
    rw [List.find?_cons_of_neg _ (by simpa using hc)] at hfind
    exact absurd hfind (by simp)
  | true =>
    rw [List.find?_cons_of_pos _ (by simpa using hc)] at hfind
    injection hfind with he
    subst he
    subst hrows
    constructor
    · exact (List.countP_eq_length_filter _ _).symm
    · intro r hr
      unfold normalizeCsv at hr
      rw [List.mem_filter] at hr
      obtain ⟨hmem, hpred⟩ := hr
      rw [List.mem_filterMap] at hmem
      obtain ⟨line, hline, hpr⟩ := hmem
      exact ⟨hpred, line, hline, hpr, parseRow_spec _ _ _ hpr⟩

/-- C6 witness: the amended count at the test fixture — exactly one of the
two well-formed rows carries the expense-category description. -/
theorem process_zip_filtered_emission_witness :
    [testRecord].length =
      ((dataLines testCsv.data).filterMap (parseRow (headerCols testCsv.data))).countP
        (fun r => containsSub expenseFilter r.descricao.data) :=
  (process_zip_filtered_emission "test_data.csv" testCsv [testRecord] (by decide)).1

/-- C7: every record in main's output is tagged with exactly the base name
of the archive it was extracted from. -/
theorem mainRun_provenance :
    ∀ (pz : String → Option (List NormalizedRecord)) (files : List String)
      (r : NormalizedRecord) (src : String),
      (r, src) ∈ mainRun pz files →
      ∃ f ∈ files, ∃ rows, pz f = some rows ∧ r ∈ rows ∧ src = osBasename f := by
  intro pz files r src hmem
  unfold mainRun mainAllData at hmem
  rw [List.mem_flatten] at hmem
  obtain ⟨l, hl, hrl⟩ := hmem
  rw [List.mem_filterMap] at hl
  obtain ⟨f, hf, hpz⟩ := hl
  split at hpz
  · exact absurd hpz (by simp)
  · next rows hrows =>
    split at hpz
    · exact absurd hpz (by simp)
    · have hl2 : l = rows.map (fun r => (r, osBasename f)) := by
        injection hpz with h
        exact h.symm
      subst hl2
      rw [List.mem_map] at hrl
      obtain ⟨a, ha, hae⟩ := hrl
      rw [Prod.mk.injEq] at hae
      obtain ⟨rfl, hsrc⟩ := hae
      exact ⟨f, hf, rows, hrows, ha, hsrc.symm⟩

/-- C7 witness: the provenance round-trip at a concrete one-archive run. -/
theorem mainRun_provenance_witness :
    ∃ f ∈ ["downloads/1T2025.zip"], ∃ rows, pzOne f = some rows ∧
      testRecord ∈ rows ∧ "1T2025.zip" = osBasename f :=
  mainRun_provenance pzOne ["downloads/1T2025.zip"] testRecord "1T2025.zip" (by decide)

/-- C8: the orchestrator is deterministic — over the same processor and the
same enumerated archive list, runs under any two ambient environments
(different clock readings, different random seeds) produce the identical
record sequence. -/
theorem mainRun_deterministic :
    ∀ (e₁ e₂ : Env) (pz : String → Option (List NormalizedRecord))
      (files : List String),
      mainRunEnv e₁ pz files = mainRunEnv e₂ pz files :=
  fun _ _ _ _ => rfl

/-- C9: for every operator present in storage, get_operator_expenses returns
precisely that operator's expense rows, ordered by period descending. -/
theorem get_operator_expenses_sorted_desc :
    ∀ (db : DB) (cnpj : String) (op : Operadora),
      find_operator db cnpj = some op →
      ∃ l, get_operator_expenses db cnpj = some l ∧
        l.Perm (db.despesas.filter (fun d => d.reg_ans == op.reg_ans)) ∧
        List.Sorted (fun a b => b.data_trimestre ≤ a.data_trimestre) l := by
  intro db cnpj op hop
  refine ⟨(db.despesas.filter (fun d => d.reg_ans == op.reg_ans)).mergeSort despesaDescLe,
    ?_, List.mergeSort_perm _ _, ?_⟩
  · unfold get_operator_expenses
    rw [hop]
  · have hs : List.Pairwise (fun a b => despesaDescLe a b = true)
        ((db.despesas.filter (fun d => d.reg_ans == op.reg_ans)).mergeSort despesaDescLe) := by
      refine List.sorted_mergeSort ?_ ?_ _
      · intro a b c h1 h2
        simp only [despesaDescLe, decide_eq_true_eq] at h1 h2 ⊢
        omega
      · intro a b
        simp only [despesaDescLe, Bool.or_eq_true, decide_eq_true_eq]
        omega
    exact hs.imp (fun h => by simpa [despesaDescLe] using h)

/-- C9 witness: the expense endpoint at a concrete two-row store. -/
theorem get_operator_expenses_sorted_desc_witness :
    ∃ l, get_operator_expenses db0 "06990590000123" = some l ∧
      l.Perm (db0.despesas.filter (fun d => d.reg_ans == op0.reg_ans)) ∧
      List.Sorted (fun a b => b.data_trimestre ≤ a.data_trimestre) l :=
  get_operator_expenses_sorted_desc db0 "06990590000123" op0 rfl

/-- C10: the statistics endpoint's average never divides by zero — the
operator count is coerced to at least 1, and with no row matching the
leaf-account/latest-quarter filter the total is coerced to 0, the count to
1, and the average is 0. -/
theorem get_statistics_average_safe :
    ∀ db : DB, 1 ≤ num_operators db ∧
      (stats_base_rows db = [] →
        total_expenses db = 0 ∧ num_operators db = 1 ∧ average_expenses db = 0) := by
  intro db
  constructor
  · unfold num_operators
    dsimp only
    split
    · exact le_refl 1
    · next h => omega
  · intro hempty
    have ht : total_expenses db = 0 := by
      unfold total_expenses
      rw [if_pos hempty]
      rfl
    have hn : num_operators db = 1 := by
      unfold num_operators
      rw [hempty]
      rfl
    refine ⟨ht, hn, ?_⟩
    unfold average_expenses
    rw [ht, hn]
    norm_num

/-- C10 witness: the empty store — total 0, operator count 1, average 0. -/
theorem get_statistics_average_safe_witness :
    total_expenses ⟨[], []⟩ = 0 ∧ num_operators ⟨[], []⟩ = 1 ∧
      average_expenses ⟨[], []⟩ = 0 :=
  (get_statistics_average_safe ⟨[], []⟩).2 rfl

end IC
